import Mathlib

/-!
Shallow embedding of `backend/app/main.py`: a FastAPI service over a SQLite
database `movies.db` with three tables (`users`, `ratings`, `movies`), a
module-level ingestion loop that merges one page of external movie records
via `INSERT OR IGNORE`, and five request handlers (`create_user`, `get_user`,
`add_rating`, `get_ratings`, `get_movies`).

Modelling conventions:
- SQLite `INTEGER` columns become `Int`; `TEXT` becomes `String`; a nullable
  column becomes `Option _`.  `REAL` rating values are stored and returned
  verbatim by the code (no arithmetic is ever performed on them), so they are
  carried as exact rationals `Rat`.
- `AUTOINCREMENT` primary keys are modelled by a `next…Id` counter that is
  bumped only on a successful insert (SQLite updates `sqlite_sequence` only
  when the insert succeeds), starting at 1.
- Each handler commits before returning; a handler's returned `DB` is the
  committed state.  The ingestion loop commits once, after the loop; an
  exception inside the loop (a `KeyError` from a missing record field)
  propagates out before `conn.commit()` is reached, so the committed state is
  then unchanged.
- The `ratings` table declares `FOREIGN KEY (user_id) REFERENCES users(id)`,
  but the code never executes `PRAGMA foreign_keys = ON`, so SQLite does not
  enforce it: `INSERT INTO ratings` always succeeds.
-/

/-- A row of the `users` table.  The DDL is
`id INTEGER PRIMARY KEY AUTOINCREMENT, username TEXT UNIQUE`:
the `username` column carries a UNIQUE constraint but no NOT NULL
constraint, hence its type is `Option String`. -/
structure UserRow where
  id : Int
  username : Option String
deriving DecidableEq

/-- A row of the `ratings` table
(`id INTEGER PRIMARY KEY AUTOINCREMENT, user_id INTEGER, movie_id INTEGER,
rating REAL, FOREIGN KEY (user_id) REFERENCES users(id)`). -/
structure RatingRow where
  id : Int
  user_id : Int
  movie_id : Int
  rating : Rat
deriving DecidableEq

/-- A row of the `movies` table
(`id INTEGER PRIMARY KEY, title TEXT, release_date TEXT, overview TEXT`);
the primary key is externally assigned (no AUTOINCREMENT). -/
structure MovieRow where
  id : Int
  title : String
  release_date : String
  overview : String
deriving DecidableEq

/-- The committed state of `movies.db`. -/
structure DB where
  users : List UserRow
  nextUserId : Int
  ratings : List RatingRow
  nextRatingId : Int
  movies : List MovieRow
deriving DecidableEq

/-- The database right after the three `CREATE TABLE IF NOT EXISTS`
statements and the first `conn.commit()`: all tables empty, both
AUTOINCREMENT sequences at 1. -/
def emptyDB : DB :=
  { users := [], nextUserId := 1, ratings := [], nextRatingId := 1, movies := [] }

/-- Pydantic request model `User` (`username: str`): the API can only ever
submit a non-null username. -/
structure User where
  username : String
deriving DecidableEq

/-- Pydantic request model `Rating`
(`user_id: int, movie_id: int, rating: float`). -/
structure Rating where
  user_id : Int
  movie_id : Int
  rating : Rat
deriving DecidableEq

/-- `fastapi.HTTPException(status_code, detail)`. -/
structure ApiError where
  status_code : Nat
  detail : String
deriving DecidableEq

instance {ε α : Type} [DecidableEq ε] [DecidableEq α] :
    DecidableEq (Except ε α) := fun x y =>
  match x, y with
  | .error a, .error b =>
    if h : a = b then .isTrue (by rw [h])
    else .isFalse (by intro hc; injection hc; contradiction)
  | .error _, .ok _ => .isFalse (by intro hc; exact Except.noConfusion hc)
  | .ok _, .error _ => .isFalse (by intro hc; exact Except.noConfusion hc)
  | .ok a, .ok b =>
    if h : a = b then .isTrue (by rw [h])
    else .isFalse (by intro hc; injection hc; contradiction)

/-- Whether a row with the given (non-null) username already exists — the
condition under which the `UNIQUE` constraint on `users.username` makes
`INSERT INTO users (username) VALUES (?)` raise `sqlite3.IntegrityError`. -/
def usernameExists (db : DB) (u : String) : Bool :=
  db.users.any (fun r => r.username == some u)

/-- Response body of `POST /users/`. -/
structure CreateUserOut where
  message : String
  id : Int
  username : String
deriving DecidableEq

/-- Handler `create_user` (`POST /users/`): `INSERT INTO users (username)
VALUES (?)`, commit, and return `{message, id: cursor.lastrowid, username}`;
on `sqlite3.IntegrityError` (duplicate username) raise
`HTTPException(400, "Username already exists")` — the failed insert leaves
the table and the AUTOINCREMENT sequence unchanged. -/
def create_user (db : DB) (user : User) : Except ApiError CreateUserOut × DB :=
  if usernameExists db user.username then
    (.error ⟨400, "Username already exists"⟩, db)
  else
    (.ok { message := "User created successfully", id := db.nextUserId,
           username := user.username },
     { db with users := db.users ++ [⟨db.nextUserId, some user.username⟩],
               nextUserId := db.nextUserId + 1 })

/-- Response body of `GET /users/{user_id}`. -/
structure GetUserOut where
  id : Int
  username : Option String
deriving DecidableEq

/-- Handler `get_user` (`GET /users/{user_id}`): `SELECT * FROM users WHERE
id=?`, `fetchone`; `404 "User not found"` when no row matches, otherwise
`{id: user[0], username: user[1]}`.  Read-only. -/
def get_user (db : DB) (user_id : Int) : Except ApiError GetUserOut :=
  match db.users.find? (fun r => r.id == user_id) with
  | none => .error ⟨404, "User not found"⟩
  | some r => .ok { id := r.id, username := r.username }

/-- Response body of `POST /ratings`. -/
structure AddRatingOut where
  message : String
  status : String
  rating_id : Int
deriving DecidableEq

/-- Handler `add_rating` (`POST /ratings`): `INSERT INTO ratings (user_id,
movie_id, rating) VALUES (?, ?, ?)`, commit, return
`{message, status, rating_id: cursor.lastrowid}`.  No existence check on
`user_id` or `movie_id`; the declared foreign key is not enforced (the code
never turns `PRAGMA foreign_keys` on), so the insert is unconditional. -/
def add_rating (db : DB) (rating : Rating) : AddRatingOut × DB :=
  ({ message := "Rating added successfully", status := "success",
     rating_id := db.nextRatingId },
   { db with
       ratings := db.ratings ++
         [⟨db.nextRatingId, rating.user_id, rating.movie_id, rating.rating⟩],
       nextRatingId := db.nextRatingId + 1 })

/-- One element of the `ratings` array of `GET /ratings/{user_id}`. -/
structure RatingEntry where
  movie_id : Int
  rating : Rat
deriving DecidableEq

/-- Response body of `GET /ratings/{user_id}`. -/
structure GetRatingsOut where
  user_id : Int
  ratings : List RatingEntry
deriving DecidableEq

/-- The result of `SELECT movie_id, rating FROM ratings WHERE user_id=?`
followed by `fetchall`, as the list of `(movie_id, rating)` pairs. -/
def ratingsOf (db : DB) (user_id : Int) : List RatingEntry :=
  (db.ratings.filter (fun r => r.user_id == user_id)).map
    (fun r => RatingEntry.mk r.movie_id r.rating)

/-- Handler `get_ratings` (`GET /ratings/{user_id}`): `SELECT movie_id,
rating FROM ratings WHERE user_id=?`, `fetchall`; when the result list is
empty raise `404 "No ratings found for this user"`, otherwise return all
matching `(movie_id, rating)` pairs.  Read-only. -/
def get_ratings (db : DB) (user_id : Int) : Except ApiError GetRatingsOut :=
  if (ratingsOf db user_id).isEmpty then
    .error ⟨404, "No ratings found for this user"⟩
  else .ok { user_id := user_id, ratings := ratingsOf db user_id }

/-- One element of the response of `GET /movies/`. -/
structure MovieOut where
  id : Int
  title : String
  release_date : String
  overview : String
deriving DecidableEq

/-- Handler `get_movies` (`GET /movies/`): `SELECT id, title, release_date,
overview FROM movies`, returning every row (an empty list is a valid
result).  Read-only. -/
def get_movies (db : DB) : List MovieOut :=
  db.movies.map (fun m => MovieOut.mk m.id m.title m.release_date m.overview)

/-- Whether a `movies` row with the given primary key exists — the condition
under which `INSERT OR IGNORE INTO movies` ignores the insert. -/
def movieIdExists (db : DB) (i : Int) : Bool :=
  db.movies.any (fun m => m.id == i)

/-- One `INSERT OR IGNORE INTO movies (id, title, release_date, overview)
VALUES (?, ?, ?, ?)` statement — the spec's `upsertMovie` primitive.  The
returned `Bool` is whether a row was actually inserted (SQLite's change
count for the statement: 1 on insert, 0 when the conflicting row already
exists and the insert is ignored). -/
def upsertMovie (db : DB) (i : Int) (title release_date overview : String) :
    Bool × DB :=
  if movieIdExists db i then (false, db)
  else (true, { db with movies := db.movies ++ [⟨i, title, release_date, overview⟩] })

/-- One element of `data['results']` as the ingestion loop sees it: a JSON
object in which any of the four accessed keys may be absent.  Subscripting a
missing key (`movie["title"]`) raises `KeyError`. -/
structure RawMovieRecord where
  id : Option Int
  title : Option String
  release_date : Option String
  overview : Option String
deriving DecidableEq

/-- Evaluation of the parameter tuple `(movie["id"], movie["title"],
movie["release_date"], movie["overview"])`, left to right: the first missing
key raises `KeyError` (carried as the key's name). -/
def parseMovie (r : RawMovieRecord) :
    Except String (Int × String × String × String) :=
  match r.id with
  | none => .error "id"
  | some i =>
    match r.title with
    | none => .error "title"
    | some t =>
      match r.release_date with
      | none => .error "release_date"
      | some rd =>
        match r.overview with
        | none => .error "overview"
        | some ov => .ok (i, t, rd, ov)

/-- The module-level ingestion loop: `for movie in data['results']:
cursor.execute("INSERT OR IGNORE INTO movies …", (movie["id"], …))`.
There is no per-record exception handling inside the loop: a `KeyError`
propagates immediately, aborting the loop (and the module load) before the
remaining records are processed and before `conn.commit()` runs. -/
def ingest (db : DB) : List RawMovieRecord → Except String DB
  | [] => .ok db
  | r :: rest =>
    match parseMovie r with
    | .error k => .error k
    | .ok (i, t, rd, ov) => ingest (upsertMovie db i t rd ov).2 rest

/-- What `movies.db` holds after an ingestion run over `page`: on success the
loop's final state is committed (`conn.commit()` after the loop); on an
exception the commit is never reached and the committed state is unchanged. -/
def ingestCommitted (db : DB) (page : List RawMovieRecord) : DB :=
  match ingest db page with
  | .ok db' => db'
  | .error _ => db

/-- Modelled from the spec: the `inserted` counter of `IngestResult` — the
source loop keeps no counters, so the count of records whose
`INSERT OR IGNORE` actually inserted a row is reconstructed alongside the
loop (the `.error` branch is irrelevant: the loop aborts there). -/
def insertedCount (db : DB) : List RawMovieRecord → Nat
  | [] => 0
  | r :: rest =>
    match parseMovie r with
    | .error _ => 0
    | .ok (i, t, rd, ov) =>
      let p := upsertMovie db i t rd ov
      (if p.1 then 1 else 0) + insertedCount p.2 rest

/-- Modelled from the spec: the `skipped` counter of `IngestResult` — the
count of records whose `INSERT OR IGNORE` was ignored because the movie id
was already present. -/
def skippedCount (db : DB) : List RawMovieRecord → Nat
  | [] => 0
  | r :: rest =>
    match parseMovie r with
    | .error _ => 0
    | .ok (i, t, rd, ov) =>
      let p := upsertMovie db i t rd ov
      (if p.1 then 0 else 1) + skippedCount p.2 rest

/-- Whether the `users` DDL admits inserting the given row alongside the
existing rows: the `UNIQUE` constraint rejects a duplicate non-null
username (SQLite treats NULLs as distinct for UNIQUE), and — the DDL having
no `NOT NULL` on `username` — a null username is admitted. -/
def usersSchemaAdmits (existing : List UserRow) (r : UserRow) : Bool :=
  match r.username with
  | none => true
  | some u => !(existing.any (fun e => e.username == some u))

/-- One invocation of a request handler (the API surface of `main.py`). -/
inductive ApiCall where
  | createUser (user : User)
  | getUser (user_id : Int)
  | addRating (rating : Rating)
  | getRatings (user_id : Int)
  | listMovies
deriving DecidableEq

/-- The effect of one handler invocation on the committed database.
`get_user`, `get_ratings` and `get_movies` only execute `SELECT`s. -/
def applyApi (db : DB) : ApiCall → DB
  | .createUser u => (create_user db u).2
  | .getUser _ => db
  | .addRating r => (add_rating db r).2
  | .getRatings _ => db
  | .listMovies => db

/-- One event touching the database: a handler invocation or an ingestion
run over one page. -/
inductive Event where
  | api (c : ApiCall)
  | ingestPage (page : List RawMovieRecord)
deriving DecidableEq

/-- The effect of one event on the committed database. -/
def applyEvent (db : DB) : Event → DB
  | .api c => applyApi db c
  | .ingestPage page => ingestCommitted db page

/-- Replay a sequence of events from a starting state. -/
def runEvents (db : DB) (es : List Event) : DB :=
  es.foldl applyEvent db

/-- The database states reachable from the freshly created `movies.db`
through the public operations (handlers and ingestion runs). -/
inductive Reachable : DB → Prop where
  | init : Reachable emptyDB
  | step : ∀ {db : DB} (e : Event), Reachable db → Reachable (applyEvent db e)

/-- Replay a sequence of handler invocations only. -/
def runApi (db : DB) (calls : List ApiCall) : DB :=
  calls.foldl applyApi db

/-- A well-formed external movie record (all four keys present). -/
def rawA : RawMovieRecord :=
  { id := some 42, title := some "Title A", release_date := some "2024-01-01",
    overview := some "overview" }

/-- A well-formed record carrying the same external id as `rawA` with
different contents. -/
def rawA2 : RawMovieRecord :=
  { id := some 42, title := some "Title B", release_date := some "2024-02-02",
    overview := some "other" }

/-- A malformed external record: the `title` key is absent, so
`movie["title"]` raises `KeyError`. -/
def rawBad : RawMovieRecord :=
  { id := some 7, title := none, release_date := some "2024-03-03",
    overview := some "bad" }

/-- A well-formed record with a fresh external id, placed after `rawBad` in
the counterexample page. -/
def rawB : RawMovieRecord :=
  { id := some 8, title := some "Title C", release_date := some "2024-04-04",
    overview := some "ovc" }

/-- The store after ingesting exactly `rawA` into the fresh database. -/
def dbA : DB :=
  { emptyDB with movies := [⟨42, "Title A", "2024-01-01", "overview"⟩] }

/-- The rating value 4.5 of the spec's scenario, given as the reduced
fraction 9/2 so that concrete states evaluate by kernel reduction. -/
def ratVal45 : Rat := ⟨9, 2, by decide, by decide⟩

/-- The inductive invariant on the `users` table used below: every row id is
below the AUTOINCREMENT counter, every username is non-null, and usernames
are pairwise distinct. -/
def UsersInv (db : DB) : Prop :=
  (∀ r ∈ db.users, r.id < db.nextUserId) ∧
  (∀ r ∈ db.users, r.username ≠ none) ∧
  db.users.Pairwise (fun a b => a.username ≠ b.username)

lemma usernameExists_true_iff (db : DB) (u : String) :
    usernameExists db u = true ↔ ∃ r ∈ db.users, r.username = some u := by
  simp [usernameExists, List.any_eq_true]

lemma usernameExists_false_iff (db : DB) (u : String) :
    usernameExists db u = false ↔ ∀ r ∈ db.users, r.username ≠ some u := by
  rw [← Bool.not_eq_true, usernameExists_true_iff]
  push_neg
  rfl

lemma movieIdExists_false_iff (db : DB) (i : Int) :
    movieIdExists db i = false ↔ ∀ m ∈ db.movies, m.id ≠ i := by
  rw [← Bool.not_eq_true]
  simp [movieIdExists, List.any_eq_true]

lemma upsertMovie_of_exists (db : DB) (i : Int) (t rd ov : String)
    (h : movieIdExists db i = true) : upsertMovie db i t rd ov = (false, db) := by
  simp [upsertMovie, h]

lemma upsertMovie_of_absent (db : DB) (i : Int) (t rd ov : String)
    (h : movieIdExists db i = false) :
    upsertMovie db i t rd ov =
      (true, { db with movies := db.movies ++ [⟨i, t, rd, ov⟩] }) := by
  simp [upsertMovie, h]

lemma movieIdExists_upsert_self (db : DB) (i : Int) (t rd ov : String) :
    movieIdExists (upsertMovie db i t rd ov).2 i = true := by
  cases h : movieIdExists db i with
  | true => simp [upsertMovie, h]
  | false =>
    rw [upsertMovie_of_absent db i t rd ov h]
    simp [movieIdExists, List.any_append]

lemma movieIdExists_upsert_mono (db : DB) (i j : Int) (t rd ov : String)
    (h : movieIdExists db j = true) :
    movieIdExists (upsertMovie db i t rd ov).2 j = true := by
  cases hc : movieIdExists db i with
  | true => simpa [upsertMovie_of_exists db i t rd ov hc] using h
  | false =>
    rw [upsertMovie_of_absent db i t rd ov hc]
    simp only [movieIdExists, List.any_append] at h ⊢
    rw [h]
    simp

lemma upsertMovie_users (db : DB) (i : Int) (t rd ov : String) :
    (upsertMovie db i t rd ov).2.users = db.users ∧
    (upsertMovie db i t rd ov).2.nextUserId = db.nextUserId ∧
    (upsertMovie db i t rd ov).2.ratings = db.ratings ∧
    (upsertMovie db i t rd ov).2.nextRatingId = db.nextRatingId := by
  cases h : movieIdExists db i with
  | true => simp [upsertMovie, h]
  | false => simp [upsertMovie, h]

lemma ingest_mono (page : List RawMovieRecord) :
    ∀ db db' : DB, ingest db page = .ok db' →
      ∀ j : Int, movieIdExists db j = true → movieIdExists db' j = true := by
  induction page with
  | nil =>
    intro db db' h j hj
    simp [ingest] at h
    rwa [← h]
  | cons r rest ih =>
    intro db db' h j hj
    cases hp : parseMovie r with
    | error k => simp [ingest, hp] at h
    | ok v =>
      obtain ⟨i, t, rd, ov⟩ := v
      simp only [ingest, hp] at h
      exact ih _ _ h j (movieIdExists_upsert_mono db i j t rd ov hj)

lemma ingest_fixed (page : List RawMovieRecord) :
    ∀ db db' : DB, ingest db page = .ok db' → ingest db' page = .ok db' := by
  induction page with
  | nil => intro db db' h; simp [ingest]
  | cons r rest ih =>
    intro db db' h
    cases hp : parseMovie r with
    | error k => simp [ingest, hp] at h
    | ok v =>
      obtain ⟨i, t, rd, ov⟩ := v
      simp only [ingest, hp] at h
      have hex : movieIdExists db' i = true :=
        ingest_mono rest _ _ h i (movieIdExists_upsert_self db i t rd ov)
      simp only [ingest, hp, upsertMovie_of_exists db' i t rd ov hex]
      exact ih _ _ h

lemma ingest_non_movies (page : List RawMovieRecord) :
    ∀ db db' : DB, ingest db page = .ok db' →
      db'.users = db.users ∧ db'.nextUserId = db.nextUserId ∧
      db'.ratings = db.ratings ∧ db'.nextRatingId = db.nextRatingId := by
  induction page with
  | nil =>
    intro db db' h
    simp [ingest] at h
    rw [← h]
    exact ⟨rfl, rfl, rfl, rfl⟩
  | cons r rest ih =>
    intro db db' h
    cases hp : parseMovie r with
    | error k => simp [ingest, hp] at h
    | ok v =>
      obtain ⟨i, t, rd, ov⟩ := v
      simp only [ingest, hp] at h
      obtain ⟨h1, h2, h3, h4⟩ := ih _ _ h
      obtain ⟨g1, g2, g3, g4⟩ := upsertMovie_users db i t rd ov
      exact ⟨h1.trans g1, h2.trans g2, h3.trans g3, h4.trans g4⟩

lemma find?_append_of_none {α : Type} (p : α → Bool) (l₁ l₂ : List α)
    (h : l₁.find? p = none) : (l₁ ++ l₂).find? p = l₂.find? p := by
  induction l₁ with
  | nil => rfl
  | cons a l ih =>
    cases hpa : p a with
    | true => simp [List.find?_cons, hpa] at h
    | false =>
      simp only [List.find?_cons, hpa] at h
      simpa [List.find?_cons, hpa] using ih h

lemma ratVal45_eq : ratVal45 = 4.5 := by
  rw [ratVal45, Rat.mk'_eq_divInt, Rat.divInt_eq_div]
  norm_num

lemma ratings_filter_nil (db : DB) (uid : Int)
    (h : ∀ r ∈ db.ratings, r.user_id ≠ uid) :
    db.ratings.filter (fun r => r.user_id == uid) = [] := by
  rw [List.filter_eq_nil_iff]
  intro a ha
  simpa using h a ha

lemma usersInv_applyApi (db : DB) (c : ApiCall) (h : UsersInv db) :
    UsersInv (applyApi db c) := by
  obtain ⟨hid, hnn, hpw⟩ := h
  cases c with
  | createUser u =>
    show UsersInv (create_user db u).2
    cases hc : usernameExists db u.username with
    | true => simpa [create_user, hc] using ⟨hid, hnn, hpw⟩
    | false =>
      simp only [create_user, hc, Bool.false_eq_true, if_false]
      refine ⟨?_, ?_, ?_⟩
      · intro r hr
        rcases List.mem_append.1 hr with h1 | h2
        · have := hid r h1
          show r.id < db.nextUserId + 1
          omega
        · simp only [List.mem_singleton] at h2
          rw [h2]
          show db.nextUserId < db.nextUserId + 1
          omega
      · intro r hr
        rcases List.mem_append.1 hr with h1 | h2
        · exact hnn r h1
        · simp only [List.mem_singleton] at h2
          rw [h2]
          simp
      · rw [List.pairwise_append]
        refine ⟨hpw, by simp, ?_⟩
        intro a ha b hb
        simp only [List.mem_singleton] at hb
        rw [hb]
        exact (usernameExists_false_iff db u.username).1 hc a ha
  | getUser uid => exact ⟨hid, hnn, hpw⟩
  | addRating r => exact ⟨hid, hnn, hpw⟩
  | getRatings uid => exact ⟨hid, hnn, hpw⟩
  | listMovies => exact ⟨hid, hnn, hpw⟩

lemma usersInv_applyEvent (db : DB) (e : Event) (h : UsersInv db) :
    UsersInv (applyEvent db e) := by
  cases e with
  | api c => exact usersInv_applyApi db c h
  | ingestPage page =>
    show UsersInv (ingestCommitted db page)
    cases hi : ingest db page with
    | error k => simpa [ingestCommitted, hi] using h
    | ok db' =>
      obtain ⟨h1, h2, _, _⟩ := ingest_non_movies page db db' hi
      simp only [ingestCommitted, hi, UsersInv, h1, h2]
      exact h

lemma reachable_usersInv (db : DB) (h : Reachable db) : UsersInv db := by
  induction h with
  | init => refine ⟨?_, ?_, ?_⟩ <;> simp [emptyDB, UsersInv]
  | step e hr ih => exact usersInv_applyEvent _ e ih

/-- C1: `upsertMovie` is insert-if-absent and never overwrites.  For any id
already present a call returns `inserted = false` and leaves the whole store
untouched; in particular, after a first insert of a fresh id, a second call
with the same id and any other values reports no insert, changes nothing,
and `get_movies` still shows exactly the first call's values for that id. -/
theorem upsertMovie_never_overwrites (db : DB) (i : Int)
    (t rd ov t' rd' ov' : String) (h : movieIdExists db i = false) :
    (∀ db' : DB, movieIdExists db' i = true →
      upsertMovie db' i t' rd' ov' = (false, db')) ∧
    (upsertMovie db i t rd ov).1 = true ∧
    upsertMovie (upsertMovie db i t rd ov).2 i t' rd' ov' =
      (false, (upsertMovie db i t rd ov).2) ∧
    MovieOut.mk i t rd ov ∈ get_movies (upsertMovie db i t rd ov).2 ∧
    (∀ mo ∈ get_movies (upsertMovie db i t rd ov).2,
      mo.id = i → mo = ⟨i, t, rd, ov⟩) := by
  refine ⟨fun db' h' => upsertMovie_of_exists db' i t' rd' ov' h', ?_, ?_, ?_, ?_⟩
  · rw [upsertMovie_of_absent db i t rd ov h]
  · exact upsertMovie_of_exists _ i t' rd' ov'
      (movieIdExists_upsert_self db i t rd ov)
  · rw [upsertMovie_of_absent db i t rd ov h]
    simp [get_movies]
  · intro mo hm hmi
    rw [upsertMovie_of_absent db i t rd ov h] at hm
    simp only [get_movies, List.map_append] at hm
    rcases List.mem_append.1 hm with h1 | h2
    · rcases List.mem_map.1 h1 with ⟨x, hx, hfx⟩
      have hne : x.id ≠ i := (movieIdExists_false_iff db i).1 h x hx
      rw [← hfx] at hmi
      exact absurd hmi hne
    · simpa using h2

/-- C1 witness: at the fresh store, a second upsert of id 42 with different
values is ignored and leaves the state of the first upsert unchanged. -/
theorem upsertMovie_never_overwrites_witness :
    upsertMovie (upsertMovie emptyDB 42 "Title A" "2024-01-01" "overview").2
        42 "Title B" "2024-02-02" "other" =
      (false, (upsertMovie emptyDB 42 "Title A" "2024-01-01" "overview").2) :=
  (upsertMovie_never_overwrites emptyDB 42 "Title A" "2024-01-01" "overview"
    "Title B" "2024-02-02" "other" (by decide)).2.2.1

/-- C2: the ingestion loop is idempotent.  Replaying the very same page a
second time leaves the committed movies state exactly as after one run; in
particular a successful run's final state is a fixed point of the loop, so
the second run inserts zero additional rows and changes no existing row. -/
theorem ingest_idempotent (db db1 : DB) (page : List RawMovieRecord) :
    runEvents db [Event.ingestPage page, Event.ingestPage page] =
      runEvents db [Event.ingestPage page] ∧
    (ingest db page = .ok db1 → ingest db1 page = .ok db1) := by
  constructor
  · show applyEvent (applyEvent db (Event.ingestPage page)) (Event.ingestPage page) =
      applyEvent db (Event.ingestPage page)
    simp only [applyEvent]
    cases hi : ingest db page with
    | error k => simp [ingestCommitted, hi]
    | ok db' =>
      simp only [ingestCommitted, hi]
      simp [ingestCommitted, ingest_fixed page db db' hi]
  · exact fun h => ingest_fixed page db db1 h

/-- C2 witness: re-ingesting the one-record page over the store it produced
returns the same store unchanged. -/
theorem ingest_idempotent_witness : ingest dbA [rawA] = .ok dbA :=
  (ingest_idempotent emptyDB dbA [rawA]).2 (by decide)

/-- C4: `create_user` on a duplicate username fails with the 400 error
"Username already exists" and leaves the whole store — users table and
AUTOINCREMENT sequence included — unchanged (no partial row); on a fresh
username it succeeds and returns the newly assigned identifier. -/
theorem create_user_duplicate_atomic (db : DB) (u : String) :
    ((∃ r ∈ db.users, r.username = some u) →
      create_user db ⟨u⟩ = (.error ⟨400, "Username already exists"⟩, db)) ∧
    ((∀ r ∈ db.users, r.username ≠ some u) →
      create_user db ⟨u⟩ =
        (.ok { message := "User created successfully", id := db.nextUserId,
               username := u },
         { db with users := db.users ++ [⟨db.nextUserId, some u⟩],
                   nextUserId := db.nextUserId + 1 })) := by
  constructor
  · intro hex
    have hc : usernameExists db u = true := (usernameExists_true_iff db u).2 hex
    simp [create_user, hc]
  · intro hall
    have hc : usernameExists db u = false := (usernameExists_false_iff db u).2 hall
    simp [create_user, hc]

/-- C4 witness: registering "alice" twice from the empty store — the first
call succeeds with id 1, the second fails with the duplicate error and
leaves the store exactly as after the first call. -/
theorem create_user_duplicate_atomic_witness :
    create_user emptyDB ⟨"alice"⟩ =
      (.ok { message := "User created successfully", id := emptyDB.nextUserId,
             username := "alice" },
       { emptyDB with users := emptyDB.users ++ [⟨emptyDB.nextUserId, some "alice"⟩],
                      nextUserId := emptyDB.nextUserId + 1 }) ∧
    create_user (create_user emptyDB ⟨"alice"⟩).2 ⟨"alice"⟩ =
      (.error ⟨400, "Username already exists"⟩, (create_user emptyDB ⟨"alice"⟩).2) :=
  ⟨(create_user_duplicate_atomic emptyDB "alice").2 (by decide),
   (create_user_duplicate_atomic (create_user emptyDB ⟨"alice"⟩).2 "alice").1 (by decide)⟩

/-- C5: `get_ratings` treats zero rows as an error — for a user id with no
rows in the ratings table it fails with the 404 error "No ratings found for
this user" — and after a single `add_rating` for that user it returns
exactly the one submitted (movie_id, rating) pair. -/
theorem get_ratings_zero_rows_error (db : DB) (uid m : Int) (v : Rat)
    (h : ∀ r ∈ db.ratings, r.user_id ≠ uid) :
    get_ratings db uid = .error ⟨404, "No ratings found for this user"⟩ ∧
    get_ratings (add_rating db ⟨uid, m, v⟩).2 uid =
      .ok { user_id := uid, ratings := [⟨m, v⟩] } := by
  have hnil : db.ratings.filter (fun r => r.user_id == uid) = [] :=
    ratings_filter_nil db uid h
  constructor
  · simp [get_ratings, ratingsOf, hnil]
  · have hone : ratingsOf (add_rating db ⟨uid, m, v⟩).2 uid = [⟨m, v⟩] := by
      simp [ratingsOf, add_rating, List.filter_append, hnil]
    simp [get_ratings, hone]

/-- C5 witness: on the empty store user 1 has no ratings (404); after one
`add_rating (1, 42, 4.5)` the fetch returns exactly that pair. -/
theorem get_ratings_zero_rows_error_witness :
    get_ratings emptyDB 1 = .error ⟨404, "No ratings found for this user"⟩ ∧
    get_ratings (add_rating emptyDB ⟨1, 42, ratVal45⟩).2 1 =
      .ok { user_id := 1, ratings := [⟨42, ratVal45⟩] } :=
  get_ratings_zero_rows_error emptyDB 1 42 ratVal45 (by decide)

/-- C6: `add_rating` inserts unconditionally — for every input, existing
user/movie or not, it succeeds, appends one ratings row with exactly the
submitted values, returns the newly assigned rating identifier, and touches
no other table. -/
theorem add_rating_unconditional (db : DB) (r : Rating) :
    (add_rating db r).1.rating_id = db.nextRatingId ∧
    (add_rating db r).1.status = "success" ∧
    (add_rating db r).2.ratings =
      db.ratings ++ [⟨db.nextRatingId, r.user_id, r.movie_id, r.rating⟩] ∧
    (add_rating db r).2.nextRatingId = db.nextRatingId + 1 ∧
    (add_rating db r).2.users = db.users ∧
    (add_rating db r).2.movies = db.movies :=
  ⟨rfl, rfl, rfl, rfl, rfl, rfl⟩

/-- C8: `get_user` fails with the 404 error "User not found" exactly when no
user row matches the given id; when a row is found it is a matching row of
the table and its `{id, username}` is returned. -/
theorem get_user_not_found_iff (db : DB) (uid : Int) :
    (get_user db uid = .error ⟨404, "User not found"⟩ ↔
      ∀ r ∈ db.users, r.id ≠ uid) ∧
    (∀ r : UserRow, db.users.find? (fun x => x.id == uid) = some r →
      r ∈ db.users ∧ r.id = uid ∧
      get_user db uid = .ok { id := r.id, username := r.username }) := by
  constructor
  · constructor
    · intro h
      cases hf : db.users.find? (fun x => x.id == uid) with
      | none =>
        intro r hr
        simpa using List.find?_eq_none.1 hf r hr
      | some r => simp [get_user, hf] at h
    · intro h
      have hf : db.users.find? (fun x => x.id == uid) = none :=
        List.find?_eq_none.2 (fun x hx => by simpa using h x hx)
      simp [get_user, hf]
  · intro r hr
    refine ⟨List.mem_of_find?_eq_some hr, ?_, ?_⟩
    · simpa using List.find?_some hr
    · simp [get_user, hr]

/-- C8 witness: with only user 1 ("alice") present, fetching user 2 is a
404 and fetching user 1 returns its row. -/
theorem get_user_not_found_iff_witness :
    get_user (create_user emptyDB ⟨"alice"⟩).2 2 = .error ⟨404, "User not found"⟩ ∧
    get_user (create_user emptyDB ⟨"alice"⟩).2 1 =
      .ok { id := 1, username := some "alice" } :=
  ⟨(get_user_not_found_iff (create_user emptyDB ⟨"alice"⟩).2 2).1.2 (by decide),
   ((get_user_not_found_iff (create_user emptyDB ⟨"alice"⟩).2 1).2
     ⟨1, some "alice"⟩ (by decide)).2.2⟩

/-- C10: frame property — no sequence of request-handler invocations ever
changes the movies table, so `get_movies` results change only through the
ingestion loop. -/
theorem handlers_never_modify_movies (db : DB) (calls : List ApiCall) :
    (runApi db calls).movies = db.movies ∧
    get_movies (runApi db calls) = get_movies db := by
  have key : ∀ (d : DB) (c : ApiCall), (applyApi d c).movies = d.movies := by
    intro d c
    cases c with
    | createUser u =>
      show (create_user d u).2.movies = d.movies
      cases hc : usernameExists d u.username with
      | true => simp [create_user, hc]
      | false => simp [create_user, hc]
    | getUser uid => rfl
    | addRating r => rfl
    | getRatings uid => rfl
    | listMovies => rfl
  have main : ∀ (cs : List ApiCall) (d : DB), (runApi d cs).movies = d.movies := by
    intro cs
    induction cs with
    | nil => intro d; rfl
    | cons c cs ih =>
      intro d
      show (runApi (applyApi d c) cs).movies = d.movies
      rw [ih (applyApi d c), key d c]
  exact ⟨main calls db, by simp [get_movies, main calls db]⟩

/-- C3 counterexample: a page of N = 3 records with K = 1 malformed
(`rawBad` lacks the `title` key).  The loop does NOT continue past the bad
record: the `KeyError` aborts the batch at `rawBad`, the well-formed `rawB`
after it is never attempted, the commit is never reached, and zero — not
N − K = 2 — records are persisted. -/
theorem ingest_aborts_on_malformed_record :
    ingest emptyDB [rawA, rawBad, rawB] = .error "title" ∧
    (runEvents emptyDB [.ingestPage [rawA, rawBad, rawB]]).movies = [] ∧
    (parseMovie rawA).isOk = true ∧
    (parseMovie rawBad).isOk = false ∧
    (parseMovie rawB).isOk = true := by decide

lemma ingest_counts (page : List RawMovieRecord) :
    ∀ db : DB, (∀ r ∈ page, (parseMovie r).isOk = true) →
      ∃ db' : DB, ingest db page = .ok db' ∧
        insertedCount db page + skippedCount db page = page.length ∧
        db'.movies.length = db.movies.length + insertedCount db page := by
  induction page with
  | nil => intro db _; exact ⟨db, rfl, rfl, rfl⟩
  | cons r rest ih =>
    intro db hall
    have hr : (parseMovie r).isOk = true := hall r (List.mem_cons_self r rest)
    have hall' : ∀ x ∈ rest, (parseMovie x).isOk = true :=
      fun x hx => hall x (List.mem_cons_of_mem r hx)
    cases hp : parseMovie r with
    | error k => rw [hp] at hr; simp [Except.isOk, Except.toBool] at hr
    | ok v =>
      obtain ⟨i, t, rd, ov⟩ := v
      cases hc : movieIdExists db i with
      | true =>
        have hup := upsertMovie_of_exists db i t rd ov hc
        obtain ⟨db', h1, h2, h3⟩ := ih db hall'
        refine ⟨db', ?_, ?_, ?_⟩
        · simp only [ingest, hp, hup]
          exact h1
        · simp only [insertedCount, skippedCount, hp, hup]
          simp only [List.length_cons]
          simp
          omega
        · simp only [insertedCount, hp, hup]
          simp
          omega
      | false =>
        have hup := upsertMovie_of_absent db i t rd ov hc
        obtain ⟨db', h1, h2, h3⟩ :=
          ih { db with movies := db.movies ++ [⟨i, t, rd, ov⟩] } hall'
        refine ⟨db', ?_, ?_, ?_⟩
        · simp only [ingest, hp, hup]
          exact h1
        · simp only [insertedCount, skippedCount, hp, hup]
          simp only [List.length_cons]
          simp
          omega
        · simp only [insertedCount, hp, hup]
          simp only [List.length_append, List.length_cons, List.length_nil] at h3
          simp
          omega

/-- C3 amended: the only per-record "failure" the loop survives is the
duplicate-id conflict, which `INSERT OR IGNORE` skips without aborting: for
a page of N records that all parse, all N are processed (inserted + skipped
= N), exactly the inserted ones extend the movies table, and a second
identical run is a no-op; a record that fails to parse instead aborts the
whole batch before the commit (see the counterexample). -/
theorem ingest_partial_failure_amended (db : DB) (page : List RawMovieRecord)
    (hall : ∀ r ∈ page, (parseMovie r).isOk = true) :
    (ingest db page).isOk = true ∧
    insertedCount db page + skippedCount db page = page.length ∧
    (ingestCommitted db page).movies.length =
      db.movies.length + insertedCount db page ∧
    ingest (ingestCommitted db page) page = .ok (ingestCommitted db page) := by
  obtain ⟨db', h1, h2, h3⟩ := ingest_counts page db hall
  refine ⟨by rw [h1]; rfl, h2, ?_, ?_⟩
  · simp [ingestCommitted, h1, h3]
  · simp only [ingestCommitted, h1]
    exact ingest_fixed page db db' h1

/-- C3 witness: a two-record page whose second record duplicates the first
record's id — both records parse, one is inserted and one skipped, and the
run is idempotent. -/
theorem ingest_partial_failure_amended_witness :
    (ingest emptyDB [rawA, rawA2]).isOk = true ∧
    insertedCount emptyDB [rawA, rawA2] + skippedCount emptyDB [rawA, rawA2] = 2 ∧
    (ingestCommitted emptyDB [rawA, rawA2]).movies.length =
      emptyDB.movies.length + insertedCount emptyDB [rawA, rawA2] ∧
    ingest (ingestCommitted emptyDB [rawA, rawA2]) [rawA, rawA2] =
      .ok (ingestCommitted emptyDB [rawA, rawA2]) :=
  ingest_partial_failure_amended emptyDB [rawA, rawA2] (by decide)

/-- C7 counterexample: the persisted `users` schema does NOT enforce
non-null on `username` — the DDL is `username TEXT UNIQUE` with no
`NOT NULL`, so the schema admits a row whose username is null (also next to
existing rows), while it does reject a duplicate non-null username. -/
theorem users_schema_lacks_not_null :
    usersSchemaAdmits [] ⟨1, none⟩ = true ∧
    usersSchemaAdmits [⟨1, some "alice"⟩] ⟨2, none⟩ = true ∧
    usersSchemaAdmits [⟨1, some "alice"⟩] ⟨2, some "alice"⟩ = false := by decide

/-- C7 amended: in every store state reachable through the public
operations, each user row's username is non-null and no two user rows share
a username; uniqueness is enforced by the schema's UNIQUE constraint, but
non-nullness holds only because the API (whose pydantic model requires a
string) is the sole writer — the schema itself has no NOT NULL. -/
theorem users_invariant_reachable (db : DB) (h : Reachable db) :
    (∀ r ∈ db.users, r.username ≠ none) ∧
    db.users.Pairwise (fun a b => a.username ≠ b.username) := by
  obtain ⟨_, h2, h3⟩ := reachable_usersInv db h
  exact ⟨h2, h3⟩

/-- C7 witness: the invariant at the reachable state obtained by one
registration from the fresh store. -/
theorem users_invariant_reachable_witness :
    List.Pairwise (fun a b => a.username ≠ b.username)
      (applyEvent emptyDB (.api (.createUser ⟨"alice"⟩))).users :=
  (users_invariant_reachable _ (Reachable.step _ Reachable.init)).2

/-- C9 counterexample: the claim's general read-your-writes sentence fails
because `add_rating` is unconditional — from the empty store, submit a stray
rating with user_id 1 before any user exists, then register "alice" (a
username not yet present, receiving id 1) and rate (1, 42, 4.5): the
ratings fetch for user 1 returns TWO entries, not exactly the submitted
pair. -/
theorem read_your_writes_exactness_cex :
    usernameExists (applyApi emptyDB (.addRating ⟨1, 42, 1⟩)) "alice" = false ∧
    (create_user (applyApi emptyDB (.addRating ⟨1, 42, 1⟩)) ⟨"alice"⟩).1 =
      .ok { message := "User created successfully", id := 1, username := "alice" } ∧
    get_ratings (add_rating
        (create_user (applyApi emptyDB (.addRating ⟨1, 42, 1⟩)) ⟨"alice"⟩).2
        ⟨1, 42, ratVal45⟩).2 1 =
      .ok { user_id := 1, ratings := [⟨42, 1⟩, ⟨42, ratVal45⟩] } ∧
    get_ratings (add_rating
        (create_user (applyApi emptyDB (.addRating ⟨1, 42, 1⟩)) ⟨"alice"⟩).2
        ⟨1, 42, ratVal45⟩).2 1 ≠
      .ok { user_id := 1, ratings := [⟨42, ratVal45⟩] } := by decide

/-- C9 amended: for a reachable store and a fresh username, registration
returns the next user id, `get_user` on that id reads the write back, a
subsequent `add_rating` returns the next rating id and its pair is
contained in the `get_ratings` result — and the result is EXACTLY the one
submitted pair when (as in the empty-store scenario, proved verbatim in the
last conjuncts) no stray rating row for that user id pre-existed. -/
theorem read_your_writes_amended (db : DB) (u : String) (m : Int) (v : Rat)
    (hreach : Reachable db) (hu : ∀ r ∈ db.users, r.username ≠ some u) :
    (create_user db ⟨u⟩).1 =
      .ok { message := "User created successfully", id := db.nextUserId,
            username := u } ∧
    get_user (create_user db ⟨u⟩).2 db.nextUserId =
      .ok { id := db.nextUserId, username := some u } ∧
    (add_rating (create_user db ⟨u⟩).2 ⟨db.nextUserId, m, v⟩).1.rating_id =
      db.nextRatingId ∧
    RatingEntry.mk m v ∈
      ratingsOf (add_rating (create_user db ⟨u⟩).2 ⟨db.nextUserId, m, v⟩).2
        db.nextUserId ∧
    get_ratings (add_rating (create_user db ⟨u⟩).2 ⟨db.nextUserId, m, v⟩).2
        db.nextUserId =
      .ok { user_id := db.nextUserId,
            ratings := ratingsOf
              (add_rating (create_user db ⟨u⟩).2 ⟨db.nextUserId, m, v⟩).2
              db.nextUserId } ∧
    ((∀ r ∈ db.ratings, r.user_id ≠ db.nextUserId) →
      ratingsOf (add_rating (create_user db ⟨u⟩).2 ⟨db.nextUserId, m, v⟩).2
        db.nextUserId = [⟨m, v⟩]) ∧
    (create_user emptyDB ⟨"alice"⟩).1 =
      .ok { message := "User created successfully", id := 1, username := "alice" } ∧
    (add_rating (create_user emptyDB ⟨"alice"⟩).2 ⟨1, 42, ratVal45⟩).1.rating_id = 1 ∧
    get_ratings (add_rating (create_user emptyDB ⟨"alice"⟩).2 ⟨1, 42, ratVal45⟩).2 1 =
      .ok { user_id := 1, ratings := [⟨42, ratVal45⟩] } := by
  have hc : usernameExists db u = false := (usernameExists_false_iff db u).2 hu
  have hEq : create_user db ⟨u⟩ =
      (.ok { message := "User created successfully", id := db.nextUserId,
             username := u },
       { db with users := db.users ++ [⟨db.nextUserId, some u⟩],
                 nextUserId := db.nextUserId + 1 }) := by
    simp [create_user, hc]
  obtain ⟨hid, _, _⟩ := reachable_usersInv db hreach
  have hfind : db.users.find? (fun x => x.id == db.nextUserId) = none :=
    List.find?_eq_none.2 (fun x hx => by simpa using (hid x hx).ne)
  have hfind2 : (db.users ++ [UserRow.mk db.nextUserId (some u)]).find?
      (fun x => x.id == db.nextUserId) = some (UserRow.mk db.nextUserId (some u)) := by
    rw [find?_append_of_none _ _ _ hfind]
    simp [List.find?_cons]
  have hRat : ratingsOf (add_rating (create_user db ⟨u⟩).2
      ⟨db.nextUserId, m, v⟩).2 db.nextUserId =
      ratingsOf db db.nextUserId ++ [⟨m, v⟩] := by
    rw [hEq]
    simp [ratingsOf, add_rating, List.filter_append]
  refine ⟨by rw [hEq], ?_, by rw [hEq]; rfl, ?_, ?_, ?_,
    by decide, by decide, by decide⟩
  · rw [hEq]
    simp [get_user, hfind2]
  · rw [hRat]
    exact List.mem_append_right _ (by simp)
  · have hne : (ratingsOf (add_rating (create_user db ⟨u⟩).2
        ⟨db.nextUserId, m, v⟩).2 db.nextUserId).isEmpty = false := by
      rw [hRat]
      simp [List.isEmpty_eq_false]
    simp [get_ratings, hne]
  · intro hnr
    rw [hRat]
    have : ratingsOf db db.nextUserId = [] := by
      simp [ratingsOf, ratings_filter_nil db db.nextUserId hnr]
    rw [this]
    simp

/-- C9 witness: the amended theorem applied at the empty store with username
"alice" and rating (42, 4.5): the read-your-writes round trip and the exact
single-entry result. -/
theorem read_your_writes_amended_witness :
    get_user (create_user emptyDB ⟨"alice"⟩).2 emptyDB.nextUserId =
      .ok { id := emptyDB.nextUserId, username := some "alice" } ∧
    ratingsOf (add_rating (create_user emptyDB ⟨"alice"⟩).2
        ⟨emptyDB.nextUserId, 42, ratVal45⟩).2 emptyDB.nextUserId =
      [⟨42, ratVal45⟩] := by
  have h := read_your_writes_amended emptyDB "alice" 42 ratVal45
    Reachable.init (by decide)
  exact ⟨h.2.1, h.2.2.2.2.2.1 (by decide)⟩
